import Mathlib

/-! Re-exec path and child launch policy of `lib/srv/reexec_linux.go`.

A shallow embedding of the Linux re-exec helpers of package `srv`:

* `runningInQemuUser`  – the probe that opens `/proc/self/stat` and looks at
  the size reported by `fstat`;
* `procfsReexecOk` and `init` – the package variable and its initialiser;
* `reexecCommandOSTweaks`, `userCommandOSTweaks` – the two functions that
  prepare an `exec.Cmd` before it is started.

Go code that mutates through a pointer is written in state-passing style: a
function receives the value behind the pointer and returns the new value.
The operating system is a record that says what `os.Open` and `(*File).Stat`
answer, together with a log of the calls the program made.  A store through
a nil pointer is a panic, which the embedding makes explicit with `Except`.

The address helpers of `utils/addr.go` follow in namespace `Utils`, embedded
over the standard library's `url.Parse`, which they take as a parameter.
-/

namespace Srv

/-! ## Types of the Go standard library the code uses -/

/-- Go's `syscall.Signal`, declared as `type Signal int`. -/
abbrev Signal := Int

/-- Linux `syscall.SIGQUIT`. -/
def SIGQUIT : Signal := 3

/-- Linux `syscall.SIGKILL`. -/
def SIGKILL : Signal := 9

/-- Go's `syscall.Credential`. -/
structure Credential where
  Uid : Nat
  Gid : Nat
  Groups : List Nat
  NoSetGroups : Bool
  deriving DecidableEq, Repr

/-- Go's `syscall.SysProcIDMap`. -/
structure SysProcIDMap where
  ContainerID : Int
  HostID : Int
  Size : Int
  deriving DecidableEq, Repr

/-- Go's `syscall.SysProcAttr` on Linux.  Pointer fields are `Option`s of the
value they point to, slices are lists. -/
structure SysProcAttr where
  Chroot : String
  Credential : Option Credential
  Ptrace : Bool
  Setsid : Bool
  Setpgid : Bool
  Setctty : Bool
  Noctty : Bool
  Ctty : Int
  Foreground : Bool
  Pgid : Int
  Pdeathsig : Signal
  Cloneflags : Nat
  Unshareflags : Nat
  UidMappings : List SysProcIDMap
  GidMappings : List SysProcIDMap
  GidMappingsEnableSetgroups : Bool
  AmbientCaps : List Nat
  deriving DecidableEq, Repr

/-- The value `new(syscall.SysProcAttr)` points to: every field has the zero
value of its type. -/
def SysProcAttr.zero : SysProcAttr where
  Chroot := ""
  Credential := none
  Ptrace := false
  Setsid := false
  Setpgid := false
  Setctty := false
  Noctty := false
  Ctty := 0
  Foreground := false
  Pgid := 0
  Pdeathsig := 0
  Cloneflags := 0
  Unshareflags := 0
  UidMappings := []
  GidMappings := []
  GidMappingsEnableSetgroups := false
  AmbientCaps := []

/-- The configuration fields of Go's `exec.Cmd`.  The stream fields hold an
interface value in Go; here each is an optional handle. -/
structure Cmd where
  Path : String
  Args : List String
  Env : List String
  Dir : String
  Stdin : Option Nat
  Stdout : Option Nat
  Stderr : Option Nat
  ExtraFiles : List Nat
  SysProcAttr : Option SysProcAttr
  deriving DecidableEq, Repr

/-- A Go `error` value, identified by its message. -/
abbrev GoError := String

/-- What `os.FileInfo` exposes to the probe: `Size()`, an `int64`.  The probe
only compares it with zero, so the value is kept as an integer. -/
structure FileInfo where
  Size : Int
  deriving DecidableEq, Repr

/-- An open `*os.File`: its name and what `Stat` answers on it. -/
structure File where
  Name : String
  Stat : Except GoError FileInfo

/-- The calls into the operating system that the package can make. -/
inductive OSCall where
  | osOpen (name : String)
  | fileStat (name : String)
  | fileClose (name : String)
  deriving DecidableEq, Repr

/-- The operating system as the package sees it: what `os.Open` answers for
each path, and the calls made so far (oldest first). -/
structure World where
  Open : String → Except GoError File
  calls : List OSCall

/-- Append one call to the log. -/
def World.record (w : World) (c : OSCall) : World :=
  { w with calls := w.calls ++ [c] }

/-- The state of the process that package `srv` can read or write: the package
variable `procfsReexecOk` and the operating system. -/
structure PkgState where
  procfsReexecOk : Bool
  world : World

/-- A Go run-time panic. -/
inductive Panic where
  | nilDereference
  deriving DecidableEq, Repr

/-! ## The code of `reexec_linux.go` -/

/-- `runningInQemuUser`: open `/proc/self/stat`; a failed open or a failed
`Stat` answer `false`, otherwise the answer is `Size() != 0`.  The deferred
`Close` runs on the way out of every path that opened the file. -/
def runningInQemuUser (w : World) : Bool × World :=
  let w := w.record (.osOpen "/proc/self/stat")
  match w.Open "/proc/self/stat" with
  | .error _ => (false, w)
  | .ok statFile =>
    let w := w.record (.fileStat statFile.Name)
    match statFile.Stat with
    | .error _ => (false, w.record (.fileClose statFile.Name))
    | .ok statInfo => (statInfo.Size != 0, w.record (.fileClose statFile.Name))

/-- The state before any initialiser has run: `var procfsReexecOk = false`. -/
def PkgState.start (w : World) : PkgState :=
  { procfsReexecOk := false, world := w }

/-- The package initialiser: `procfsReexecOk = !runningInQemuUser()`. -/
def init (s : PkgState) : PkgState :=
  let r := runningInQemuUser s.world
  { procfsReexecOk := !r.1, world := r.2 }

/-- The statement `cmd.SysProcAttr = new(syscall.SysProcAttr)` guarded by
`cmd.SysProcAttr == nil`. -/
def ensureSysProcAttr (cmd : Cmd) : Cmd :=
  if cmd.SysProcAttr.isNone then { cmd with SysProcAttr := some SysProcAttr.zero } else cmd

/-- The statement `cmd.SysProcAttr.Pdeathsig = sig`: a store through the
pointer `cmd.SysProcAttr`, which panics when the pointer is nil. -/
def storePdeathsig (cmd : Cmd) (sig : Signal) : Except Panic Cmd :=
  match cmd.SysProcAttr with
  | none => .error .nilDereference
  | some attr => .ok { cmd with SysProcAttr := some { attr with Pdeathsig := sig } }

/-- `reexecCommandOSTweaks(cmd)`, for a non-nil `cmd`. -/
def reexecCommandOSTweaks (cmd : Cmd) (s : PkgState) : Except Panic (Cmd × PkgState) :=
  let cmd := ensureSysProcAttr cmd
  match storePdeathsig cmd SIGQUIT with
  | .error e => .error e
  | .ok cmd =>
    let cmd := if s.procfsReexecOk then { cmd with Path := "/proc/self/exe" } else cmd
    .ok (cmd, s)

/-- `userCommandOSTweaks(cmd)`, for a non-nil `cmd`. -/
def userCommandOSTweaks (cmd : Cmd) (s : PkgState) : Except Panic (Cmd × PkgState) :=
  let cmd := ensureSysProcAttr cmd
  match storePdeathsig cmd SIGKILL with
  | .error e => .error e
  | .ok cmd => .ok (cmd, s)

/-! ## Vocabulary for the statements -/

/-- Two attribute blocks hold the same value in every field other than
`Pdeathsig`. -/
def SysProcAttr.agreeOffPdeathsig (a b : SysProcAttr) : Prop :=
  a.Chroot = b.Chroot ∧ a.Credential = b.Credential ∧ a.Ptrace = b.Ptrace ∧
  a.Setsid = b.Setsid ∧ a.Setpgid = b.Setpgid ∧ a.Setctty = b.Setctty ∧
  a.Noctty = b.Noctty ∧ a.Ctty = b.Ctty ∧ a.Foreground = b.Foreground ∧
  a.Pgid = b.Pgid ∧ a.Cloneflags = b.Cloneflags ∧ a.Unshareflags = b.Unshareflags ∧
  a.UidMappings = b.UidMappings ∧ a.GidMappings = b.GidMappings ∧
  a.GidMappingsEnableSetgroups = b.GidMappingsEnableSetgroups ∧
  a.AmbientCaps = b.AmbientCaps

instance (a b : SysProcAttr) : Decidable (a.agreeOffPdeathsig b) := by
  unfold SysProcAttr.agreeOffPdeathsig
  infer_instance

/-- One call of either of the two entry points of the launch policy. -/
inductive Tweak where
  | reexec (cmd : Cmd)
  | user (cmd : Cmd)
  deriving DecidableEq, Repr

/-- Perform one call. -/
def Tweak.run : Tweak → PkgState → Except Panic (Cmd × PkgState)
  | .reexec cmd, s => reexecCommandOSTweaks cmd s
  | .user cmd, s => userCommandOSTweaks cmd s

/-- Perform a sequence of calls one after the other, each on the state the
previous one left; the result lists the descriptors in call order. -/
def runTweaks : List Tweak → PkgState → Except Panic (List Cmd × PkgState)
  | [], s => .ok ([], s)
  | t :: ts, s =>
    match t.run s with
    | .error e => .error e
    | .ok (cmd, s1) =>
      match runTweaks ts s1 with
      | .error e => .error e
      | .ok (cmds, s2) => .ok (cmd :: cmds, s2)

/-! ## Concrete inputs -/

/-- A system on which `/proc/self/stat` (and every other path) cannot be
opened. -/
def World.absent : World :=
  { Open := fun _ => .error "no such file or directory", calls := [] }

/-- A system on which every open succeeds and `Stat` fails. -/
def World.statFails : World :=
  { Open := fun name => .ok { Name := name, Stat := .error "input/output error" }, calls := [] }

/-- A system on which every open succeeds and `Stat` reports size `n`. -/
def World.withSize (n : Int) : World :=
  { Open := fun name => .ok { Name := name, Stat := .ok { Size := n } }, calls := [] }

/-- A descriptor as `exec.Cmd{Path: ..., Args: ...}` leaves it: no attribute
block. -/
def bareCmd : Cmd :=
  { Path := "/usr/local/bin/teleport", Args := ["teleport", "exec"], Env := [], Dir := "",
    Stdin := none, Stdout := none, Stderr := none, ExtraFiles := [], SysProcAttr := none }

/-- A descriptor whose caller has already filled in part of the attribute
block. -/
def preparedCmd : Cmd :=
  { bareCmd with
    Path := "/bin/sh"
    Args := ["sh", "-c", "true"]
    SysProcAttr := some { SysProcAttr.zero with
      Setsid := true, Pdeathsig := 15,
      Credential := some { Uid := 1000, Gid := 1000, Groups := [4, 27], NoSetGroups := false } } }

end Srv

namespace Utils

/-! ## Package `utils`: network addresses (`utils/addr.go`) -/

/-- A Go `error` value, identified by the text of `Error()`. -/
abbrev GoError := String

/-- Go's `url.Userinfo`. -/
structure Userinfo where
  username : String
  password : String
  passwordSet : Bool
  deriving DecidableEq, Repr

/-- Go's `url.URL`, the value `url.Parse` returns. -/
structure URL where
  Scheme : String
  Opaque : String
  User : Option Userinfo
  Host : String
  Path : String
  RawPath : String
  ForceQuery : Bool
  RawQuery : String
  Fragment : String
  RawFragment : String
  deriving DecidableEq, Repr

/-- The type of Go's `url.Parse`, a function of the standard library: the
code of `addr.go` is embedded over any function of this type. -/
abbrev URLParse := String → Except GoError URL

/-- `type NetAddr struct { Addr string; Network string }`. -/
structure NetAddr where
  Addr : String
  Network : String
  deriving DecidableEq, Repr

/-- `(*NetAddr).String`: `fmt.Sprintf("%v://%v", a.Network, a.Addr)`. -/
def NetAddr.String (a : NetAddr) : String :=
  a.Network ++ "://" ++ a.Addr

/-- `ParseAddr(a)`: the pair `(*NetAddr, error)` is an `Except`. -/
def ParseAddr (urlParse : URLParse) (a : String) : Except GoError NetAddr :=
  match urlParse a with
  | .error err => .error ("failed to parse '" ++ a ++ "':" ++ err)
  | .ok u =>
    if u.Scheme = "tcp" then
      .ok { Addr := u.Host, Network := u.Scheme }
    else if u.Scheme = "unix" then
      .ok { Addr := u.Path, Network := u.Scheme }
    else
      .error ("unsupported scheme '" ++ a ++ "': '" ++ u.Scheme ++ "'")

/-- `type NetAddrVal NetAddr`: a distinct type with the fields of `NetAddr`. -/
structure NetAddrVal where
  Addr : String
  Network : String
  deriving DecidableEq, Repr

/-- The conversion `NetAddr(v)` of a `NetAddrVal`. -/
def NetAddrVal.toNetAddr (a : NetAddrVal) : NetAddr :=
  { Addr := a.Addr, Network := a.Network }

/-- `(*NetAddrVal).Set(s)`: returns the receiver after the call and the error
(`none` for a nil error). -/
def NetAddrVal.Set (urlParse : URLParse) (a : NetAddrVal) (s : String) :
    NetAddrVal × Option GoError :=
  match ParseAddr urlParse s with
  | .error err => (a, some err)
  | .ok v =>
    let a := { a with Addr := v.Addr }
    let a := { a with Network := v.Network }
    (a, none)

/-- `(*NetAddrVal).String`: the `String` of the receiver converted to
`*NetAddr`. -/
def NetAddrVal.String (a : NetAddrVal) : String :=
  a.toNetAddr.String

/-- `(*NetAddrVal).Get`: `NetAddr(*a)`. -/
def NetAddrVal.Get (a : NetAddrVal) : NetAddr :=
  a.toNetAddr

/-- `type NetAddrList struct { addrs *[]NetAddr }`, with the slice behind the
pointer as a list. -/
structure NetAddrList where
  addrs : List NetAddr
  deriving DecidableEq, Repr

/-- `(*NetAddrList).Set(s)`: returns the receiver after the call and the
error (`none` for a nil error). -/
def NetAddrList.Set (urlParse : URLParse) (nl : NetAddrList) (s : String) :
    NetAddrList × Option GoError :=
  match ParseAddr urlParse s with
  | .error err => (nl, some err)
  | .ok v => ({ nl with addrs := nl.addrs ++ [v] }, none)

/-- Go's `strings.Join(elems, sep)`: empty for no element, the element itself
for one, otherwise the first element followed by `sep` and the next element
for each further one. -/
def stringsJoin (elems : List String) (sep : String) : String :=
  match elems with
  | [] => ""
  | [e] => e
  | e :: rest => rest.foldl (fun b s => b ++ sep ++ s) e

/-- `(*NetAddrList).String`: the loop appends each element's `String()` to
`ns`, then `strings.Join(ns, " ")`. -/
def NetAddrList.String (nl : NetAddrList) : String :=
  let ns := nl.addrs.foldl (fun ns n => ns ++ [n.String]) []
  stringsJoin ns " "

/-! ## Concrete inputs -/

/-- The answers of `url.Parse` on four inputs; every other input is answered
here with a parse error. -/
def tableURLParse : URLParse := fun s =>
  let blank : URL :=
    { Scheme := "", Opaque := "", User := none, Host := "", Path := "", RawPath := "",
      ForceQuery := false, RawQuery := "", Fragment := "", RawFragment := "" }
  if s = "tcp://localhost:3025" then
    .ok { blank with Scheme := "tcp", Host := "localhost:3025" }
  else if s = "unix:///var/run/teleport.sock" then
    .ok { blank with Scheme := "unix", Path := "/var/run/teleport.sock" }
  else if s = "http://example.com/x" then
    .ok { blank with Scheme := "http", Host := "example.com", Path := "/x" }
  else if s = "" then
    .ok blank
  else
    .error ("parse \"" ++ s ++ "\": missing protocol scheme")

/-- A list of two addresses, one of them with a space in its path. -/
def twoAddrs : NetAddrList :=
  { addrs := [{ Addr := "localhost:3025", Network := "tcp" },
              { Addr := "/var/run/my dir.sock", Network := "unix" }] }

end Utils

namespace Srv

/-! ## What the two entry points compute -/

/-- The descriptor `reexecCommandOSTweaks` and `userCommandOSTweaks` leave
behind has an attribute block: the old one, or a fresh zero block, with
`Pdeathsig` overwritten. -/
theorem storePdeathsig_ensure (cmd : Cmd) (sig : Signal) :
    storePdeathsig (ensureSysProcAttr cmd) sig =
      .ok { cmd with
        SysProcAttr := some { cmd.SysProcAttr.getD SysProcAttr.zero with Pdeathsig := sig } } := by
  cases h : cmd.SysProcAttr <;> simp [storePdeathsig, ensureSysProcAttr, h]

/-- Closed form of `reexecCommandOSTweaks`. -/
theorem reexecCommandOSTweaks_eq (cmd : Cmd) (s : PkgState) :
    reexecCommandOSTweaks cmd s =
      .ok ({ cmd with
              Path := if s.procfsReexecOk then "/proc/self/exe" else cmd.Path
              SysProcAttr :=
                some { cmd.SysProcAttr.getD SysProcAttr.zero with Pdeathsig := SIGQUIT } },
           s) := by
  unfold reexecCommandOSTweaks
  simp only [storePdeathsig_ensure]
  cases s.procfsReexecOk <;> simp

/-- Closed form of `userCommandOSTweaks`. -/
theorem userCommandOSTweaks_eq (cmd : Cmd) (s : PkgState) :
    userCommandOSTweaks cmd s =
      .ok ({ cmd with
              SysProcAttr :=
                some { cmd.SysProcAttr.getD SysProcAttr.zero with Pdeathsig := SIGKILL } },
           s) := by
  unfold userCommandOSTweaks
  simp only [storePdeathsig_ensure]

/-- Overwriting `Pdeathsig` leaves every other field of the block alone. -/
theorem agreeOffPdeathsig_set (a : SysProcAttr) (sig : Signal) :
    a.agreeOffPdeathsig { a with Pdeathsig := sig } := by
  simp [SysProcAttr.agreeOffPdeathsig]

/-! ## The launch policy -/

/-- C1: for every launch descriptor and every state, `reexecCommandOSTweaks`
returns normally, the attribute block of the result is present with
`Pdeathsig` equal to `SIGQUIT`, and when `procfsReexecOk` is true the `Path`
of the result is `/proc/self/exe`. -/
theorem reexecCommandOSTweaks_sigquit_and_shortcut (cmd : Cmd) (s : PkgState) :
    ∃ cmd' s' attr', reexecCommandOSTweaks cmd s = .ok (cmd', s') ∧
      cmd'.SysProcAttr = some attr' ∧ attr'.Pdeathsig = SIGQUIT ∧
      (s.procfsReexecOk = true → cmd'.Path = "/proc/self/exe") := by
  refine ⟨_, _, _, reexecCommandOSTweaks_eq cmd s, rfl, rfl, ?_⟩
  intro h
  simp [h]

/-- C1 at a descriptor with a caller-filled block and path `/bin/sh`, on a
native system after initialisation. -/
theorem reexecCommandOSTweaks_sigquit_and_shortcut_witness :
    (init (PkgState.start World.absent)).procfsReexecOk = true ∧
    ∃ cmd' s' attr',
      reexecCommandOSTweaks preparedCmd (init (PkgState.start World.absent)) = .ok (cmd', s') ∧
      cmd'.SysProcAttr = some attr' ∧ attr'.Pdeathsig = 3 ∧ cmd'.Path = "/proc/self/exe" := by
  refine ⟨rfl, ?_⟩
  obtain ⟨cmd', s', attr', h, ha, hs, hp⟩ :=
    reexecCommandOSTweaks_sigquit_and_shortcut preparedCmd (init (PkgState.start World.absent))
  exact ⟨cmd', s', attr', h, ha, hs, hp rfl⟩

/-- C2: when `procfsReexecOk` is false, `reexecCommandOSTweaks` returns
normally and the `Path` of the result is the `Path` the caller supplied. -/
theorem reexecCommandOSTweaks_keeps_path (cmd : Cmd) (s : PkgState)
    (h : s.procfsReexecOk = false) :
    ∃ cmd' s', reexecCommandOSTweaks cmd s = .ok (cmd', s') ∧ cmd'.Path = cmd.Path := by
  refine ⟨_, _, reexecCommandOSTweaks_eq cmd s, ?_⟩
  simp [h]

/-- C2 at the path `/usr/local/bin/teleport`, under an emulator that reports
size 512. -/
theorem reexecCommandOSTweaks_keeps_path_witness :
    (init (PkgState.start (World.withSize 512))).procfsReexecOk = false ∧
    ∃ cmd' s',
      reexecCommandOSTweaks bareCmd (init (PkgState.start (World.withSize 512))) = .ok (cmd', s') ∧
      cmd'.Path = "/usr/local/bin/teleport" :=
  ⟨rfl, reexecCommandOSTweaks_keeps_path bareCmd _ rfl⟩

/-- C3: for every launch descriptor and every state (so for both values of
`procfsReexecOk`), `userCommandOSTweaks` returns normally, the attribute
block of the result is present with `Pdeathsig` equal to `SIGKILL`, and the
`Path` of the result is the `Path` before the call. -/
theorem userCommandOSTweaks_sigkill_keeps_path (cmd : Cmd) (s : PkgState) :
    ∃ cmd' s' attr', userCommandOSTweaks cmd s = .ok (cmd', s') ∧
      cmd'.SysProcAttr = some attr' ∧ attr'.Pdeathsig = SIGKILL ∧ cmd'.Path = cmd.Path :=
  ⟨_, _, _, userCommandOSTweaks_eq cmd s, rfl, rfl, rfl⟩

/-- C4: when the attribute block is present before the call, both
`reexecCommandOSTweaks` and `userCommandOSTweaks` return normally with the
block still present, and every field of it other than `Pdeathsig` holds the
value it held before. -/
theorem tweaks_keep_existing_block (cmd : Cmd) (s : PkgState) (attr : SysProcAttr)
    (h : cmd.SysProcAttr = some attr) :
    (∃ cmd' s' attr', reexecCommandOSTweaks cmd s = .ok (cmd', s') ∧
      cmd'.SysProcAttr = some attr' ∧ attr.agreeOffPdeathsig attr') ∧
    (∃ cmd' s' attr', userCommandOSTweaks cmd s = .ok (cmd', s') ∧
      cmd'.SysProcAttr = some attr' ∧ attr.agreeOffPdeathsig attr') := by
  constructor
  · refine ⟨_, _, _, reexecCommandOSTweaks_eq cmd s, rfl, ?_⟩
    rw [h]
    exact agreeOffPdeathsig_set attr SIGQUIT
  · refine ⟨_, _, _, userCommandOSTweaks_eq cmd s, rfl, ?_⟩
    rw [h]
    exact agreeOffPdeathsig_set attr SIGKILL

/-- C4 at a block whose caller set `Setsid`, `Credential` and a `Pdeathsig`
of 15. -/
theorem tweaks_keep_existing_block_witness :
    preparedCmd.SysProcAttr = some { SysProcAttr.zero with
      Setsid := true, Pdeathsig := 15,
      Credential := some { Uid := 1000, Gid := 1000, Groups := [4, 27], NoSetGroups := false } } ∧
    (∃ cmd' s' attr', reexecCommandOSTweaks preparedCmd (PkgState.start World.absent) = .ok (cmd', s') ∧
      cmd'.SysProcAttr = some attr' ∧ attr'.Setsid = true ∧
      attr'.Credential = some { Uid := 1000, Gid := 1000, Groups := [4, 27], NoSetGroups := false }) ∧
    (∃ cmd' s' attr', userCommandOSTweaks preparedCmd (PkgState.start World.absent) = .ok (cmd', s') ∧
      cmd'.SysProcAttr = some attr' ∧ attr'.Setsid = true ∧
      attr'.Credential = some { Uid := 1000, Gid := 1000, Groups := [4, 27], NoSetGroups := false }) := by
  refine ⟨rfl, ?_⟩
  obtain ⟨⟨c1, s1, a1, h1, hb1, hg1⟩, ⟨c2, s2, a2, h2, hb2, hg2⟩⟩ :=
    tweaks_keep_existing_block preparedCmd (PkgState.start World.absent) _ rfl
  exact ⟨⟨c1, s1, a1, h1, hb1, hg1.2.2.2.1.symm, hg1.2.1.symm⟩,
    ⟨c2, s2, a2, h2, hb2, hg2.2.2.2.1.symm, hg2.2.1.symm⟩⟩

/-- C5: when the attribute block is absent before the call, neither
`reexecCommandOSTweaks` nor `userCommandOSTweaks` panics: each returns with a
block present whose `Pdeathsig` is `SIGQUIT`, respectively `SIGKILL`, and
whose every other field has the zero value. -/
theorem tweaks_create_missing_block (cmd : Cmd) (s : PkgState)
    (h : cmd.SysProcAttr = none) :
    (∃ cmd' s' attr', reexecCommandOSTweaks cmd s = .ok (cmd', s') ∧
      cmd'.SysProcAttr = some attr' ∧ attr'.Pdeathsig = SIGQUIT ∧
      attr'.agreeOffPdeathsig SysProcAttr.zero) ∧
    (∃ cmd' s' attr', userCommandOSTweaks cmd s = .ok (cmd', s') ∧
      cmd'.SysProcAttr = some attr' ∧ attr'.Pdeathsig = SIGKILL ∧
      attr'.agreeOffPdeathsig SysProcAttr.zero) := by
  constructor
  · refine ⟨_, _, _, reexecCommandOSTweaks_eq cmd s, rfl, rfl, ?_⟩
    rw [h]
    simp [SysProcAttr.agreeOffPdeathsig]
  · refine ⟨_, _, _, userCommandOSTweaks_eq cmd s, rfl, rfl, ?_⟩
    rw [h]
    simp [SysProcAttr.agreeOffPdeathsig]

/-- C5 at a descriptor built without an attribute block: the block after
either call is the zero block with `Pdeathsig` 3, respectively 9. -/
theorem tweaks_create_missing_block_witness :
    bareCmd.SysProcAttr = none ∧
    (∃ cmd' s', reexecCommandOSTweaks bareCmd (PkgState.start World.absent) = .ok (cmd', s') ∧
      cmd'.SysProcAttr = some { SysProcAttr.zero with Pdeathsig := 3 }) ∧
    (∃ cmd' s', userCommandOSTweaks bareCmd (PkgState.start World.absent) = .ok (cmd', s') ∧
      cmd'.SysProcAttr = some { SysProcAttr.zero with Pdeathsig := 9 }) := by
  refine ⟨rfl, ?_⟩
  obtain ⟨⟨c1, s1, a1, h1, hb1, hp1, hg1⟩, ⟨c2, s2, a2, h2, hb2, hp2, hg2⟩⟩ :=
    tweaks_create_missing_block bareCmd (PkgState.start World.absent) rfl
  refine ⟨⟨c1, s1, h1, ?_⟩, ⟨c2, s2, h2, ?_⟩⟩
  · rw [hb1]
    cases a1
    simp only [SysProcAttr.agreeOffPdeathsig, SysProcAttr.zero] at hg1 hp1 ⊢
    simp [hg1, hp1, SIGQUIT]
  · rw [hb2]
    cases a2
    simp only [SysProcAttr.agreeOffPdeathsig, SysProcAttr.zero] at hg2 hp2 ⊢
    simp [hg2, hp2, SIGKILL]

/-! ## The probe -/

/-- The probe answers `false` when the open fails. -/
theorem runningInQemuUser_open_error (w : World) (e : GoError)
    (h : w.Open "/proc/self/stat" = .error e) : (runningInQemuUser w).1 = false := by
  simp [runningInQemuUser, World.record, h]

/-- The probe answers `false` when the open succeeds and `Stat` fails. -/
theorem runningInQemuUser_stat_error (w : World) (f : File) (e : GoError)
    (h : w.Open "/proc/self/stat" = .ok f) (hs : f.Stat = .error e) :
    (runningInQemuUser w).1 = false := by
  simp [runningInQemuUser, World.record, h, hs]

/-- The probe answers `Size() != 0` when the open and `Stat` succeed. -/
theorem runningInQemuUser_size (w : World) (f : File) (info : FileInfo)
    (h : w.Open "/proc/self/stat" = .ok f) (hs : f.Stat = .ok info) :
    (runningInQemuUser w).1 = (info.Size != 0) := by
  simp [runningInQemuUser, World.record, h, hs]

/-- C6: when opening `/proc/self/stat` fails, or the open succeeds and the
`Stat` query fails, `runningInQemuUser` returns `false`; its result is a
plain boolean, so no error reaches the caller. -/
theorem runningInQemuUser_false_on_failure (w : World)
    (h : (∃ e, w.Open "/proc/self/stat" = .error e) ∨
         (∃ f e, w.Open "/proc/self/stat" = .ok f ∧ f.Stat = .error e)) :
    (runningInQemuUser w).1 = false := by
  rcases h with ⟨e, he⟩ | ⟨f, e, hf, he⟩
  · exact runningInQemuUser_open_error w e he
  · exact runningInQemuUser_stat_error w f e hf he

/-- C6 on a system without the file and on a system where `Stat` fails. -/
theorem runningInQemuUser_false_on_failure_witness :
    (World.absent.Open "/proc/self/stat" = .error "no such file or directory" ∧
      (runningInQemuUser World.absent).1 = false) ∧
    (World.statFails.Open "/proc/self/stat" =
        .ok { Name := "/proc/self/stat", Stat := .error "input/output error" } ∧
      (runningInQemuUser World.statFails).1 = false) :=
  ⟨⟨rfl, runningInQemuUser_false_on_failure World.absent (Or.inl ⟨_, rfl⟩)⟩,
   ⟨rfl, runningInQemuUser_false_on_failure World.statFails (Or.inr ⟨_, _, rfl, rfl⟩)⟩⟩

/-- C7: when `/proc/self/stat` opens and `Stat` succeeds with a reported size
`s ≥ 0`, `runningInQemuUser` returns `false` if `s` is 0 and `true` if `s` is
greater than 0; over these sizes its result is the test `0 < s`. -/
theorem runningInQemuUser_by_size (w : World) (f : File) (info : FileInfo)
    (h : w.Open "/proc/self/stat" = .ok f) (hs : f.Stat = .ok info)
    (hsize : 0 ≤ info.Size) :
    (info.Size = 0 → (runningInQemuUser w).1 = false) ∧
    (0 < info.Size → (runningInQemuUser w).1 = true) ∧
    (runningInQemuUser w).1 = decide (0 < info.Size) := by
  rw [runningInQemuUser_size w f info h hs]
  refine ⟨?_, ?_, ?_⟩
  · intro h0
    simp [h0]
  · intro hpos
    have hne : info.Size ≠ 0 := by omega
    simp [hne]
  · by_cases h0 : info.Size = 0
    · simp [h0]
    · have hpos : 0 < info.Size := by omega
      simp [h0, hpos]

/-- C7 at reported sizes 0 (native procfs) and 512 (a regular file). -/
theorem runningInQemuUser_by_size_witness :
    ((World.withSize 0).Open "/proc/self/stat" =
        .ok { Name := "/proc/self/stat", Stat := .ok { Size := 0 } } ∧
      (runningInQemuUser (World.withSize 0)).1 = false) ∧
    ((World.withSize 512).Open "/proc/self/stat" =
        .ok { Name := "/proc/self/stat", Stat := .ok { Size := 512 } } ∧
      (runningInQemuUser (World.withSize 512)).1 = true) :=
  ⟨⟨rfl, (runningInQemuUser_by_size (World.withSize 0) _ ⟨0⟩ rfl rfl (by decide)).1 rfl⟩,
   ⟨rfl, (runningInQemuUser_by_size (World.withSize 512) _ ⟨512⟩ rfl rfl (by decide)).2.1
      (by decide)⟩⟩

/-! ## Initialisation and the resolver -/

/-- C8: after `init` the flag `procfsReexecOk` is the negation of what the
probe returned.  When the probe returned `false` the flag is true and
`reexecCommandOSTweaks` puts `/proc/self/exe` in `Path`; when the probe
returned `true` the flag is false and `reexecCommandOSTweaks` leaves `Path`
as the caller supplied it. -/
theorem init_flag_is_negated_probe (s : PkgState) (cmd : Cmd) :
    (init s).procfsReexecOk = !(runningInQemuUser s.world).1 ∧
    ((runningInQemuUser s.world).1 = false →
      (init s).procfsReexecOk = true ∧
      ∃ cmd' s', reexecCommandOSTweaks cmd (init s) = .ok (cmd', s') ∧
        cmd'.Path = "/proc/self/exe") ∧
    ((runningInQemuUser s.world).1 = true →
      (init s).procfsReexecOk = false ∧
      ∃ cmd' s', reexecCommandOSTweaks cmd (init s) = .ok (cmd', s') ∧
        cmd'.Path = cmd.Path) := by
  refine ⟨rfl, ?_, ?_⟩
  · intro h
    have hflag : (init s).procfsReexecOk = true := by simp [init, h]
    refine ⟨hflag, _, _, reexecCommandOSTweaks_eq cmd (init s), ?_⟩
    simp [hflag]
  · intro h
    have hflag : (init s).procfsReexecOk = false := by simp [init, h]
    refine ⟨hflag, _, _, reexecCommandOSTweaks_eq cmd (init s), ?_⟩
    simp [hflag]

/-- C8 on a native system (reported size 0) and under an emulator (reported
size 512), for a descriptor with path `/usr/local/bin/teleport`. -/
theorem init_flag_is_negated_probe_witness :
    ((runningInQemuUser (PkgState.start (World.withSize 0)).world).1 = false ∧
      (init (PkgState.start (World.withSize 0))).procfsReexecOk = true ∧
      ∃ cmd' s', reexecCommandOSTweaks bareCmd (init (PkgState.start (World.withSize 0))) =
          .ok (cmd', s') ∧ cmd'.Path = "/proc/self/exe") ∧
    ((runningInQemuUser (PkgState.start (World.withSize 512)).world).1 = true ∧
      (init (PkgState.start (World.withSize 512))).procfsReexecOk = false ∧
      ∃ cmd' s', reexecCommandOSTweaks bareCmd (init (PkgState.start (World.withSize 512))) =
          .ok (cmd', s') ∧ cmd'.Path = "/usr/local/bin/teleport") :=
  ⟨⟨rfl, (init_flag_is_negated_probe (PkgState.start (World.withSize 0)) bareCmd).2.1 rfl⟩,
   ⟨rfl, (init_flag_is_negated_probe (PkgState.start (World.withSize 512)) bareCmd).2.2 rfl⟩⟩

/-- C9: for every system and every launch descriptor, running `init` from the
initial package state and then `reexecCommandOSTweaks` returns normally with
`Pdeathsig` equal to `SIGQUIT`; the resulting `Path` is `/proc/self/exe` when
`/proc/self/stat` cannot be opened, and is the caller-supplied path when the
file opens and reports a non-zero size. -/
theorem init_then_reexec (w : World) (cmd : Cmd) :
    ∃ cmd' s' attr',
      reexecCommandOSTweaks cmd (init (PkgState.start w)) = .ok (cmd', s') ∧
      cmd'.SysProcAttr = some attr' ∧ attr'.Pdeathsig = SIGQUIT ∧
      ((∃ e, w.Open "/proc/self/stat" = .error e) → cmd'.Path = "/proc/self/exe") ∧
      (∀ f info, w.Open "/proc/self/stat" = .ok f → f.Stat = .ok info → info.Size ≠ 0 →
        cmd'.Path = cmd.Path) := by
  refine ⟨_, _, _, reexecCommandOSTweaks_eq cmd _, rfl, rfl, ?_, ?_⟩
  · rintro ⟨e, he⟩
    have hp : (runningInQemuUser w).1 = false := runningInQemuUser_open_error w e he
    simp [init, PkgState.start, hp]
  · intro f info hf hs hne
    have hp : (runningInQemuUser w).1 = true := by
      rw [runningInQemuUser_size w f info hf hs]
      simp [hne]
    simp [init, PkgState.start, hp]

/-- C9 in the two scenarios of the specification: status file absent, and
status file present with size 512, each with caller path
`/usr/local/bin/teleport`. -/
theorem init_then_reexec_witness :
    (∃ cmd' s' attr',
      reexecCommandOSTweaks bareCmd (init (PkgState.start World.absent)) = .ok (cmd', s') ∧
      cmd'.SysProcAttr = some attr' ∧ attr'.Pdeathsig = 3 ∧ cmd'.Path = "/proc/self/exe") ∧
    (∃ cmd' s' attr',
      reexecCommandOSTweaks bareCmd (init (PkgState.start (World.withSize 512))) = .ok (cmd', s') ∧
      cmd'.SysProcAttr = some attr' ∧ attr'.Pdeathsig = 3 ∧
      cmd'.Path = "/usr/local/bin/teleport") := by
  constructor
  · obtain ⟨c, s, a, h, ha, hs, hopen, _⟩ := init_then_reexec World.absent bareCmd
    exact ⟨c, s, a, h, ha, hs, hopen ⟨_, rfl⟩⟩
  · obtain ⟨c, s, a, h, ha, hs, _, hsize⟩ := init_then_reexec (World.withSize 512) bareCmd
    exact ⟨c, s, a, h, ha, hs, hsize _ ⟨512⟩ rfl rfl (by decide)⟩

/-! ## The cached flag is write-once -/

/-- A single call of either entry point returns the state it was given. -/
theorem Tweak.run_state (t : Tweak) (s : PkgState) : ∃ cmd, t.run s = .ok (cmd, s) := by
  cases t with
  | reexec cmd => exact ⟨_, reexecCommandOSTweaks_eq cmd s⟩
  | user cmd => exact ⟨_, userCommandOSTweaks_eq cmd s⟩

/-- A sequence of calls returns, one descriptor per call, in the state it
started from. -/
theorem runTweaks_state (calls : List Tweak) (s : PkgState) :
    ∃ cmds, runTweaks calls s = .ok (cmds, s) ∧ cmds.length = calls.length := by
  induction calls with
  | nil => exact ⟨[], rfl, rfl⟩
  | cons t ts ih =>
    obtain ⟨cmd, hcmd⟩ := Tweak.run_state t s
    obtain ⟨cmds, hcmds, hlen⟩ := ih
    refine ⟨cmd :: cmds, ?_, by simp [hlen]⟩
    simp [runTweaks, hcmd, hcmds]

/-- C10: for every state and every sequence of calls to
`reexecCommandOSTweaks` and `userCommandOSTweaks` on any descriptors, the
sequence runs to the end, the value of `procfsReexecOk` after the calls is its
value before them, and the calls made no call into the operating system, so
the probe was not run again. -/
theorem procfsReexecOk_never_mutated (calls : List Tweak) (s : PkgState) :
    ∃ cmds s', runTweaks calls s = .ok (cmds, s') ∧
      s'.procfsReexecOk = s.procfsReexecOk ∧ s'.world.calls = s.world.calls := by
  obtain ⟨cmds, h, _⟩ := runTweaks_state calls s
  exact ⟨cmds, s, h, rfl, rfl⟩

/-! ## Frame of the launch policy -/

/-- C11: for every launch descriptor and state, `reexecCommandOSTweaks`
returns a descriptor whose fields other than `Path` and `SysProcAttr` (`Args`,
`Env`, `Dir`, the three streams and `ExtraFiles`) are those of the input, and
`userCommandOSTweaks` returns a descriptor whose fields other than
`SysProcAttr` (those and `Path`) are those of the input. -/
theorem tweaks_touch_only_owned_fields (cmd : Cmd) (s : PkgState) :
    (∃ cmd' s', reexecCommandOSTweaks cmd s = .ok (cmd', s') ∧
      cmd'.Args = cmd.Args ∧ cmd'.Env = cmd.Env ∧ cmd'.Dir = cmd.Dir ∧
      cmd'.Stdin = cmd.Stdin ∧ cmd'.Stdout = cmd.Stdout ∧ cmd'.Stderr = cmd.Stderr ∧
      cmd'.ExtraFiles = cmd.ExtraFiles) ∧
    (∃ cmd' s', userCommandOSTweaks cmd s = .ok (cmd', s') ∧
      cmd'.Path = cmd.Path ∧
      cmd'.Args = cmd.Args ∧ cmd'.Env = cmd.Env ∧ cmd'.Dir = cmd.Dir ∧
      cmd'.Stdin = cmd.Stdin ∧ cmd'.Stdout = cmd.Stdout ∧ cmd'.Stderr = cmd.Stderr ∧
      cmd'.ExtraFiles = cmd.ExtraFiles) :=
  ⟨⟨_, _, reexecCommandOSTweaks_eq cmd s, rfl, rfl, rfl, rfl, rfl, rfl, rfl⟩,
   ⟨_, _, userCommandOSTweaks_eq cmd s, rfl, rfl, rfl, rfl, rfl, rfl, rfl, rfl⟩⟩

/-! ## Idempotence of the launch policy -/

/-- C16: for every launch descriptor and state, each of
`reexecCommandOSTweaks` and `userCommandOSTweaks` returns normally, and
applying it again to the descriptor and state it returned returns that same
descriptor and state. -/
theorem tweaks_idempotent (cmd : Cmd) (s : PkgState) :
    (∃ cmd1 s1, reexecCommandOSTweaks cmd s = .ok (cmd1, s1) ∧
      s1.procfsReexecOk = s.procfsReexecOk ∧
      reexecCommandOSTweaks cmd1 s1 = .ok (cmd1, s1)) ∧
    (∃ cmd1 s1, userCommandOSTweaks cmd s = .ok (cmd1, s1) ∧
      s1.procfsReexecOk = s.procfsReexecOk ∧
      userCommandOSTweaks cmd1 s1 = .ok (cmd1, s1)) := by
  constructor
  · refine ⟨_, _, reexecCommandOSTweaks_eq cmd s, rfl, ?_⟩
    rw [reexecCommandOSTweaks_eq]
    cases s.procfsReexecOk <;> simp
  · refine ⟨_, _, userCommandOSTweaks_eq cmd s, rfl, ?_⟩
    rw [userCommandOSTweaks_eq]
    simp

/-! ## The probe on every reported size -/

/-- C17: when `/proc/self/stat` opens and `Stat` succeeds, `runningInQemuUser`
returns `true` exactly when the reported size is different from 0, so it
returns `true` for a negative size; and whenever the probe returns `false`,
the open failed, or `Stat` failed, or the reported size is 0. -/
theorem runningInQemuUser_true_iff_size_ne_zero (w : World) :
    (∀ f info, w.Open "/proc/self/stat" = .ok f → f.Stat = .ok info →
      (((runningInQemuUser w).1 = true ↔ info.Size ≠ 0) ∧
       (info.Size < 0 → (runningInQemuUser w).1 = true))) ∧
    ((runningInQemuUser w).1 = false →
      (∃ e, w.Open "/proc/self/stat" = .error e) ∨
      (∃ f e, w.Open "/proc/self/stat" = .ok f ∧ f.Stat = .error e) ∨
      (∃ f info, w.Open "/proc/self/stat" = .ok f ∧ f.Stat = .ok info ∧ info.Size = 0)) := by
  constructor
  · intro f info hf hs
    rw [runningInQemuUser_size w f info hf hs]
    constructor
    · simp
    · intro hneg
      have hne : info.Size ≠ 0 := by omega
      simp [hne]
  · intro hfalse
    cases hopen : w.Open "/proc/self/stat" with
    | error e => exact Or.inl ⟨e, rfl⟩
    | ok f =>
      cases hstat : f.Stat with
      | error e => exact Or.inr (Or.inl ⟨f, e, rfl, hstat⟩)
      | ok info =>
        refine Or.inr (Or.inr ⟨f, info, rfl, hstat, ?_⟩)
        rw [runningInQemuUser_size w f info hopen hstat] at hfalse
        simpa using hfalse

/-- C17 at a reported size of -1: the probe answers `true`; and at a reported
size of 0 the `false` answer comes from the third case. -/
theorem runningInQemuUser_true_iff_size_ne_zero_witness :
    ((World.withSize (-1)).Open "/proc/self/stat" =
        .ok { Name := "/proc/self/stat", Stat := .ok { Size := -1 } } ∧
      (runningInQemuUser (World.withSize (-1))).1 = true) ∧
    ((runningInQemuUser (World.withSize 0)).1 = false ∧
      ((∃ e, (World.withSize 0).Open "/proc/self/stat" = .error e) ∨
       (∃ f e, (World.withSize 0).Open "/proc/self/stat" = .ok f ∧ f.Stat = .error e) ∨
       (∃ f info, (World.withSize 0).Open "/proc/self/stat" = .ok f ∧ f.Stat = .ok info ∧
          info.Size = 0))) :=
  ⟨⟨rfl, ((runningInQemuUser_true_iff_size_ne_zero (World.withSize (-1))).1 _ ⟨-1⟩ rfl rfl).2
      (by decide)⟩,
   ⟨rfl, (runningInQemuUser_true_iff_size_ne_zero (World.withSize 0)).2 rfl⟩⟩

end Srv

namespace Utils

/-! ## Parsing an address -/

/-- C14: `ParseAddr a` is decided by the URL parse of `a`.  A failed URL parse
gives an error and no address; scheme `tcp` gives the address with network
`tcp` and the URL host; scheme `unix` gives the address with network `unix`
and the URL path; any other scheme, the empty one included, gives an error
and no address.  So every address `ParseAddr` returns has network `tcp` or
`unix`. -/
theorem ParseAddr_by_scheme (urlParse : URLParse) (a : String) :
    (∀ err, urlParse a = .error err →
      ParseAddr urlParse a = .error ("failed to parse '" ++ a ++ "':" ++ err)) ∧
    (∀ u, urlParse a = .ok u → u.Scheme = "tcp" →
      ParseAddr urlParse a = .ok { Network := "tcp", Addr := u.Host }) ∧
    (∀ u, urlParse a = .ok u → u.Scheme = "unix" →
      ParseAddr urlParse a = .ok { Network := "unix", Addr := u.Path }) ∧
    (∀ u, urlParse a = .ok u → u.Scheme ≠ "tcp" → u.Scheme ≠ "unix" →
      ParseAddr urlParse a =
        .error ("unsupported scheme '" ++ a ++ "': '" ++ u.Scheme ++ "'")) ∧
    (∀ v, ParseAddr urlParse a = .ok v → v.Network = "tcp" ∨ v.Network = "unix") := by
  refine ⟨?_, ?_, ?_, ?_, ?_⟩
  · intro err h
    simp [ParseAddr, h]
  · intro u h htcp
    simp [ParseAddr, h, htcp]
  · intro u h hunix
    simp [ParseAddr, h, hunix]
  · intro u h h1 h2
    simp [ParseAddr, h, h1, h2]
  · intro v hv
    unfold ParseAddr at hv
    cases hu : urlParse a with
    | error err => simp [hu] at hv
    | ok u =>
      simp only [hu] at hv
      by_cases h1 : u.Scheme = "tcp"
      · simp only [h1, if_true, Except.ok.injEq] at hv
        left
        rw [← hv]
      · by_cases h2 : u.Scheme = "unix"
        · simp only [h2, if_true, Except.ok.injEq] at hv
          right
          simp at hv
          rw [← hv]
        · simp [h1, h2] at hv

/-- C14 on a tcp address, a unix address, an http URL, the empty string and
a string `url.Parse` rejects. -/
theorem ParseAddr_by_scheme_witness :
    ParseAddr tableURLParse "tcp://localhost:3025" =
      .ok { Network := "tcp", Addr := "localhost:3025" } ∧
    ParseAddr tableURLParse "unix:///var/run/teleport.sock" =
      .ok { Network := "unix", Addr := "/var/run/teleport.sock" } ∧
    ParseAddr tableURLParse "http://example.com/x" =
      .error "unsupported scheme 'http://example.com/x': 'http'" ∧
    ParseAddr tableURLParse "" = .error "unsupported scheme '': ''" ∧
    ParseAddr tableURLParse ":foo" =
      .error "failed to parse ':foo':parse \":foo\": missing protocol scheme" :=
  ⟨(ParseAddr_by_scheme tableURLParse "tcp://localhost:3025").2.1 _ rfl rfl,
   (ParseAddr_by_scheme tableURLParse "unix:///var/run/teleport.sock").2.2.1 _ rfl rfl,
   (ParseAddr_by_scheme tableURLParse "http://example.com/x").2.2.2.1 _ rfl
      (by decide) (by decide),
   (ParseAddr_by_scheme tableURLParse "").2.2.2.1 _ rfl (by decide) (by decide),
   (ParseAddr_by_scheme tableURLParse ":foo").1 _ rfl⟩

/-! ## The flag values -/

/-- C13: for every string `s` and receiver `a`: when `ParseAddr s` succeeds
with `v`, `Set s` returns no error, the receiver afterwards has the `Network`
and `Addr` of `v`, `Get` returns `v`, and `String` returns `Network`, then
`://`, then `Addr`; when `ParseAddr s` fails with `err`, `Set s` returns `err`
and the receiver is unchanged. -/
theorem NetAddrVal_Set_flag_value (urlParse : URLParse) (a : NetAddrVal) (s : String) :
    (∀ v, ParseAddr urlParse s = .ok v →
      (a.Set urlParse s).2 = none ∧
      (a.Set urlParse s).1.Network = v.Network ∧
      (a.Set urlParse s).1.Addr = v.Addr ∧
      (a.Set urlParse s).1.Get = v ∧
      (a.Set urlParse s).1.String = v.Network ++ "://" ++ v.Addr) ∧
    (∀ err, ParseAddr urlParse s = .error err → a.Set urlParse s = (a, some err)) := by
  constructor
  · intro v hv
    simp [NetAddrVal.Set, hv, NetAddrVal.Get, NetAddrVal.String, NetAddrVal.toNetAddr,
      NetAddr.String]
  · intro err herr
    simp [NetAddrVal.Set, herr]

/-- C13 on a receiver holding a default address: a unix address replaces it,
a rejected string leaves it. -/
theorem NetAddrVal_Set_flag_value_witness :
    (ParseAddr tableURLParse "unix:///var/run/teleport.sock" =
        .ok { Network := "unix", Addr := "/var/run/teleport.sock" } ∧
      (NetAddrVal.Set tableURLParse { Addr := "localhost:3025", Network := "tcp" }
          "unix:///var/run/teleport.sock").1.String = "unix:///var/run/teleport.sock") ∧
    (ParseAddr tableURLParse ":foo" =
        .error "failed to parse ':foo':parse \":foo\": missing protocol scheme" ∧
      NetAddrVal.Set tableURLParse { Addr := "localhost:3025", Network := "tcp" } ":foo" =
        ({ Addr := "localhost:3025", Network := "tcp" },
         some "failed to parse ':foo':parse \":foo\": missing protocol scheme")) :=
  ⟨⟨rfl, ((NetAddrVal_Set_flag_value tableURLParse { Addr := "localhost:3025", Network := "tcp" }
      "unix:///var/run/teleport.sock").1 _ rfl).2.2.2.2⟩,
   ⟨rfl, (NetAddrVal_Set_flag_value tableURLParse { Addr := "localhost:3025", Network := "tcp" }
      ":foo").2 _ rfl⟩⟩

/-- C15: for every list `nl` and string `s`: when `ParseAddr s` succeeds with
`v`, `Set s` returns no error and the list afterwards is the old list followed
by `v`: one element longer, `v` last, the earlier elements kept in order; when
`ParseAddr s` fails with `err`, `Set s` returns `err` and the list is
unchanged. -/
theorem NetAddrList_Set_appends (urlParse : URLParse) (nl : NetAddrList) (s : String) :
    (∀ v, ParseAddr urlParse s = .ok v →
      (nl.Set urlParse s).2 = none ∧
      (nl.Set urlParse s).1.addrs = nl.addrs ++ [v] ∧
      (nl.Set urlParse s).1.addrs.length = nl.addrs.length + 1 ∧
      (nl.Set urlParse s).1.addrs.getLast? = some v ∧
      (nl.Set urlParse s).1.addrs.take nl.addrs.length = nl.addrs) ∧
    (∀ err, ParseAddr urlParse s = .error err → nl.Set urlParse s = (nl, some err)) := by
  constructor
  · intro v hv
    simp [NetAddrList.Set, hv]
  · intro err herr
    simp [NetAddrList.Set, herr]

/-- C15 on a list of two addresses: a tcp address is appended as the third, a
rejected string leaves the two. -/
theorem NetAddrList_Set_appends_witness :
    (ParseAddr tableURLParse "tcp://localhost:3025" =
        .ok { Network := "tcp", Addr := "localhost:3025" } ∧
      (twoAddrs.Set tableURLParse "tcp://localhost:3025").1.addrs =
        [{ Addr := "localhost:3025", Network := "tcp" },
         { Addr := "/var/run/my dir.sock", Network := "unix" },
         { Addr := "localhost:3025", Network := "tcp" }]) ∧
    (ParseAddr tableURLParse ":foo" =
        .error "failed to parse ':foo':parse \":foo\": missing protocol scheme" ∧
      twoAddrs.Set tableURLParse ":foo" =
        (twoAddrs, some "failed to parse ':foo':parse \":foo\": missing protocol scheme")) :=
  ⟨⟨rfl, ((NetAddrList_Set_appends tableURLParse twoAddrs "tcp://localhost:3025").1 _ rfl).2.1⟩,
   ⟨rfl, (NetAddrList_Set_appends tableURLParse twoAddrs ":foo").2 _ rfl⟩⟩

/-! ## Rendering a list of addresses -/

/-- Folding `++` over a list of strings from an accumulator puts the
accumulator in front of the concatenation. -/
theorem foldl_append_eq (l : List String) (acc : String) :
    l.foldl (fun r s => r ++ s) acc = acc ++ String.join l := by
  induction l generalizing acc with
  | nil => simp [String.join]
  | cons x xs ih =>
    simp only [List.foldl_cons, String.join]
    rw [ih (acc ++ x), ih ("" ++ x)]
    simp [String.append_assoc]

/-- Concatenation of a non-empty list of strings. -/
theorem join_cons (x : String) (xs : List String) :
    String.join (x :: xs) = x ++ String.join xs := by
  simp only [String.join, List.foldl_cons]
  rw [foldl_append_eq xs ("" ++ x)]
  simp [String.join]

/-- A prefix of the first element can be moved in front of the interspersed
concatenation. -/
theorem join_intersperse_append (sep a b : String) (ys : List String) :
    String.join (((a ++ b) :: ys).intersperse sep) =
      a ++ String.join ((b :: ys).intersperse sep) := by
  cases ys with
  | nil => simp [join_cons, String.append_assoc]
  | cons y ys => simp [join_cons, String.append_assoc]

/-- The loop of `strings.Join` computes the interspersed concatenation. -/
theorem foldl_sep_eq (sep : String) (rest : List String) (e : String) :
    rest.foldl (fun b s => b ++ sep ++ s) e = String.join ((e :: rest).intersperse sep) := by
  induction rest generalizing e with
  | nil => simp [join_cons, String.join]
  | cons y ys ih =>
    rw [List.foldl_cons, ih (e ++ sep ++ y), String.append_assoc,
      join_intersperse_append sep e (sep ++ y) ys, join_intersperse_append sep sep y ys]
    simp [join_cons]

/-- `strings.Join` is the concatenation of the elements with the separator
interspersed. -/
theorem stringsJoin_eq (elems : List String) (sep : String) :
    stringsJoin elems sep = String.join (elems.intersperse sep) := by
  match elems with
  | [] => simp [stringsJoin, String.join]
  | [e] => simp [stringsJoin, join_cons, String.join]
  | e :: y :: rest =>
    simp only [stringsJoin]
    exact foldl_sep_eq sep (y :: rest) e

/-- The loop of `NetAddrList.String` collects the renderings in list order. -/
theorem foldl_renderings (l : List NetAddr) (acc : List String) :
    l.foldl (fun ns n => ns ++ [n.String]) acc = acc ++ l.map NetAddr.String := by
  induction l generalizing acc with
  | nil => simp
  | cons x xs ih => simp [ih]

/-- Length of an interspersed concatenation of a non-empty list: the lengths
of the elements and one separator for each element after the first. -/
theorem length_join_intersperse (sep : String) (x : String) (xs : List String) :
    (String.join ((x :: xs).intersperse sep)).length =
      ((x :: xs).map String.length).sum + sep.length * xs.length := by
  induction xs generalizing x with
  | nil => simp [join_cons, String.join]
  | cons y ys ih =>
    rw [List.intersperse_cons₂, join_cons, join_cons, String.length_append,
      String.length_append, ih y]
    simp only [List.map_cons, List.sum_cons, List.length_cons]
    ring

/-- C18: for every address list, `NetAddrList.String` is the renderings
`Network ++ "://" ++ Addr` of its elements, in list order, with a single space
between neighbours.  The empty list renders as the empty string, and for a
list of `n ≥ 1` elements the result is as long as the renderings together plus
`n - 1` separators. -/
theorem NetAddrList_String_space_joined (nl : NetAddrList) :
    nl.String =
      String.join ((nl.addrs.map (fun a => a.Network ++ "://" ++ a.Addr)).intersperse " ") ∧
    (nl.addrs = [] → nl.String = "") ∧
    (nl.addrs ≠ [] →
      nl.String.length =
        (nl.addrs.map (fun a => (a.Network ++ "://" ++ a.Addr).length)).sum +
          (nl.addrs.length - 1)) := by
  have hmain : nl.String =
      String.join ((nl.addrs.map (fun a => a.Network ++ "://" ++ a.Addr)).intersperse " ") := by
    unfold NetAddrList.String
    simp only [foldl_renderings, List.nil_append, stringsJoin_eq]
    rfl
  refine ⟨hmain, ?_, ?_⟩
  · intro hnil
    rw [hmain, hnil]
    rfl
  · intro hne
    rw [hmain]
    cases h : nl.addrs with
    | nil => exact absurd h hne
    | cons x xs =>
      rw [List.map_cons, length_join_intersperse]
      have hsep : (" " : String).length = 1 := rfl
      simp [hsep, Function.comp_def]

/-- C18 on a list of two addresses, the second with a space in its path: one
separator between the two renderings, 48 characters in all. -/
theorem NetAddrList_String_space_joined_witness :
    twoAddrs.addrs ≠ [] ∧
    twoAddrs.String = "tcp://localhost:3025 unix:///var/run/my dir.sock" ∧
    twoAddrs.String.length = (20 + 27) + (2 - 1) := by
  refine ⟨by decide, ?_, ?_⟩
  · rw [(NetAddrList_String_space_joined twoAddrs).1]
    decide
  · rw [(NetAddrList_String_space_joined twoAddrs).2.2 (by decide)]
    decide

end Utils
